import Mathlib

/-!
# Verification of the saga feed-to-epub pipeline (`src/main.rs`)

Shallow embedding of the core of `src/main.rs`: the per-feed entry selection
(`get_entry` / `pick_entry`), the run orchestrator (`process`), the daemon
loop's reaction to a run's outcome (`start_daemon`), the fetch-conversion
step (`get_entries`), and the packaging step (`generate_epub`).

Modelling conventions:
* Instants (`chrono::DateTime<Utc>`) are embedded as `Nat` via the order
  embedding of the representable range with `DateTime::<Utc>::MIN_UTC ↦ 0`;
  every representable instant is `≥ MIN_UTC`, every actual wall-clock
  `Utc::now()` is `> MIN_UTC`.
* The SQLite store is embedded as an explicit pure state `DbState`
  (relation `feeds(url, last_processed)` and relation `entries(id)`);
  the two read queries used by the selector are total over that state.
* External capabilities are parameters: `fetch` (HTTP get + feed parse, can
  fail = FetchError), `ser` (the html5ever→xhtml reserialisation inside
  `parse_xhtml`), `deliver` (the `fs::write` + `send_email` tail of a run),
  and the random source of `rand::rng()` as a `Nat` seed (the chosen index
  is `seed % len`, covering every possible draw of `choose`).
* Rust `Result` is `Except String`; a Rust panic (`unwrap` on `None`) is the
  distinguished outcome `RunOutcome.panic`, which unwinds past all `?`
  operators and kills the process.
-/

/-- `struct DisplayEntry` of `main.rs`. -/
structure DisplayEntry where
  id : String
  feed_title : String
  title : String
  authors : List String
  published : Nat
  content : String
deriving Repr, DecidableEq

/-- `struct FeedConfig` of `main.rs` (`url`, `random`). -/
structure FeedConfig where
  url : String
  random : Bool
deriving Repr, DecidableEq

/-- `struct EmailConfig` of `main.rs` (fields `to` and `from` renamed, as
both are Lean keywords). -/
structure EmailConfig where
  to_addr : String
  from_addr : String
  relay : String
  username : String
  password : String
deriving Repr, DecidableEq

/-- `struct Config` of `main.rs`. -/
structure Config where
  email : EmailConfig
  schedule : String
  rss : List FeedConfig
deriving Repr, DecidableEq

/-- The durable SQLite state created in `get_db_conn`: table
`feeds(url PRIMARY KEY, last_processed INTEGER)` and table
`entries(id PRIMARY KEY)`. -/
structure DbState where
  feeds : List (String × Nat)
  entries : List String
deriving Repr, DecidableEq

/-- `get_feed_last_processed`: `SELECT last_processed FROM feeds WHERE url = ?1`,
`None` when the feed has no row. -/
def get_feed_last_processed (db : DbState) (url : String) : Option Nat :=
  (db.feeds.find? (fun p => p.1 == url)).map (fun p => p.2)

/-- `is_entry_already_processed`: `SELECT count(*) FROM entries WHERE id = ?1`,
compared with `> 0`. -/
def is_entry_already_processed (db : DbState) (id : String) : Bool :=
  db.entries.contains id

/-- The comparator `|a, b| a.published.cmp(&b.published)` handed to the stable
`sort_by` in `pick_entry`, as a boolean `le` for `List.mergeSort` (Lean's
`mergeSort` is stable, like Rust's `sort_by`). -/
def published_le (a b : DisplayEntry) : Bool :=
  decide (a.published ≤ b.published)

/-- `pick_entry` of `main.rs`. With a recorded `last_processed`: filter the
candidates to those published strictly after it; if that is empty and
`random` is set, draw one from the *full* candidate list (`choose`,
embedded as index `seed % len`); otherwise stably sort the filtered list by
`published` and take the first, erring on an empty list. With no recorded
`last_processed`: take the first candidate of the list as given. -/
def pick_entry (db : DbState) (feed_conf : FeedConfig)
    (new_entries : List DisplayEntry) (seed : Nat) :
    Except String DisplayEntry :=
  match get_feed_last_processed db feed_conf.url with
  | some last_processed =>
    let unprocessed_entries :=
      new_entries.filter (fun x => decide (last_processed < x.published))
    if unprocessed_entries.isEmpty && feed_conf.random then
      match new_entries.get? (seed % new_entries.length) with
      | some e => .ok e
      | none => .error "failed to pick random entry"
    else
      match (unprocessed_entries.mergeSort published_le).head? with
      | some e => .ok e
      | none => .error "failed to pick first entry"
  | none =>
    match new_entries.head? with
    | some e => .ok e
    | none => .error "failed to pick first entry"

/-- `get_entry` of `main.rs`: fetch the feed's candidates (propagating a
FetchError), keep those with `published < cutoff` that are not already in
the processed table, return `None` on an empty remainder, otherwise defer to
`pick_entry` (propagating its error). -/
def get_entry (db : DbState) (fetch : String → Except String (List DisplayEntry))
    (feed_conf : FeedConfig) (cutoff : Nat) (seed : Nat) :
    Except String (Option DisplayEntry) :=
  match fetch feed_conf.url with
  | .error e => .error e
  | .ok entries =>
    let new_entries := entries.filter
      (fun x => decide (x.published < cutoff) && ! is_entry_already_processed db x.id)
    if new_entries.isEmpty then
      .ok none
    else
      match pick_entry db feed_conf new_entries seed with
      | .error e => .error e
      | .ok entry => .ok (some entry)

/-- The epub produced by `generate_epub`: metadata author "Saga", title
"Saga - 1", and the list of chapter contents actually added via
`add_content`. -/
structure Epub where
  author : String
  title : String
  chapters : List String
deriving Repr, DecidableEq

/-- Outcome of running a fallible Rust code path: normal return,
returned `Err`, or a panic that unwinds and kills the process. -/
inductive RunOutcome (α : Type) where
  | ok : α → RunOutcome α
  | err : String → RunOutcome α
  | panic : RunOutcome α
deriving Repr, DecidableEq

/-- `generate_epub` of `main.rs`: `entries.first().unwrap()` panics on an
empty batch; otherwise only that first entry's content is added as
"Chapter 1" of the book. -/
def generate_epub (entries : List DisplayEntry) : RunOutcome Epub :=
  match entries.head? with
  | none => .panic
  | some entry => .ok { author := "Saga", title := "Saga - 1", chapters := [entry.content] }

/-- The `for feed_conf in &config.rss` loop of `process`: visit the feeds in
order, pushing each found entry; the `?` on `get_entry` aborts the whole
loop at the first failing feed. -/
def collect_entries (db : DbState)
    (fetch : String → Except String (List DisplayEntry))
    (seed : String → Nat) (cutoff : Nat) :
    List FeedConfig → Except String (List DisplayEntry)
  | [] => .ok []
  | fc :: rest =>
    match get_entry db fetch fc cutoff (seed fc.url) with
    | .error e => .error e
    | .ok found =>
      match collect_entries db fetch seed cutoff rest with
      | .error e => .error e
      | .ok others =>
        match found with
        | some e => .ok (e :: others)
        | none => .ok others

/-- `process` of `main.rs`: collect at most one entry per configured feed
(first feed error aborts the run), package them with `generate_epub`
(panicking on an empty batch), hand the artifact to the delivery tail
(`fs::write` + `send_email`), and return. The source performs no store
write after delivery (only the comment
`update last_processed time and insert entries in transaction`), so the
returned store state is the input store state. -/
def process (db : DbState) (config : Config)
    (fetch : String → Except String (List DisplayEntry))
    (seed : String → Nat) (cutoff : Nat)
    (deliver : Epub → Except String Unit) :
    RunOutcome (DbState × Epub) :=
  match collect_entries db fetch seed cutoff config.rss with
  | .error e => .err e
  | .ok entries =>
    match generate_epub entries with
    | .panic => .panic
    | .err e => .err e
    | .ok epub =>
      match deliver epub with
      | .error e => .err e
      | .ok _ => .ok (db, epub)

/-- State of the daemon loop of `start_daemon` after one iteration. -/
inductive LoopState where
  | running
  | dead
deriving Repr, DecidableEq

/-- One iteration of the `loop` in `start_daemon`: when no next fire instant
can be computed, log and sleep 60 s and iterate again; otherwise sleep until
the instant and run `process` — a returned `Err` is logged
(`Error during scheduled process`) and the loop iterates, but a panic
unwinds through `start_daemon` and kills the process. -/
def daemon_iteration (next_fire : Option Nat) (run : RunOutcome (DbState × Epub)) :
    LoopState :=
  match next_fire with
  | none => .running
  | some _ =>
    match run with
    | .ok _ => .running
    | .err _ => .running
    | .panic => .dead

/-- A raw `feed_rs::model::Entry` as consumed by `get_entries`/`parse_xhtml`:
id, optional title, author names, optional published instant, and
`content : Option<Content { body: Option<String> }>`. -/
structure RawEntry where
  id : String
  title : Option String
  authors : List String
  published : Option Nat
  content : Option (Option String)
deriving Repr, DecidableEq

/-- `parse_xhtml` of `main.rs`: error when the entry has no content or no
content body, otherwise reserialise the body as xhtml (`ser` abstracts the
html5ever parse + xml5ever serialize round trip). -/
def parse_xhtml (ser : String → String) (e : RawEntry) : Except String String :=
  match e.content with
  | none => .error "No content found"
  | some none => .error "No content body found"
  | some (some body) => .ok (ser body)

/-- The body of the `for entry in feed.entries` loop of `get_entries`:
defaulted feed title and entry title, author names, published defaulted to
`DateTime::<Utc>::MIN_UTC` (embedded as `0`) when absent, and the
`parse_xhtml` content (whose error aborts the whole fetch via `?`). -/
def convert_entry (ser : String → String) (feedTitle : Option String)
    (e : RawEntry) : Except String DisplayEntry :=
  match parse_xhtml ser e with
  | .error err => .error err
  | .ok content =>
    .ok { id := e.id
          feed_title := feedTitle.getD "Unknown Feed"
          title := e.title.getD "Unknown Title"
          authors := e.authors
          published := e.published.getD 0
          content := content }

/-- `get_entries` of `main.rs`, after the HTTP fetch and feed parse have
produced a raw entry list: convert each entry in order, the first conversion
error aborting the fetch. -/
def get_entries (ser : String → String) (feedTitle : Option String) :
    List RawEntry → Except String (List DisplayEntry)
  | [] => .ok []
  | e :: rest =>
    match convert_entry ser feedTitle e with
    | .error err => .error err
    | .ok d =>
      match get_entries ser feedTitle rest with
      | .error err => .error err
      | .ok ds => .ok (d :: ds)

/-! ## Helper lemmas -/

/-- Whatever branch `pick_entry` takes, a successful pick is an element of the
candidate list it was given. -/
theorem pick_entry_mem {db : DbState} {fc : FeedConfig} {l : List DisplayEntry}
    {seed : Nat} {e : DisplayEntry} (h : pick_entry db fc l seed = .ok e) :
    e ∈ l := by
  unfold pick_entry at h
  cases hlp : get_feed_last_processed db fc.url with
  | none =>
    rw [hlp] at h
    cases hh : l.head? with
    | none => rw [hh] at h; exact absurd h (by simp)
    | some a =>
      rw [hh] at h
      cases h
      exact List.mem_of_mem_head? (by rw [hh]; rfl)
  | some lp =>
    rw [hlp] at h
    simp only at h
    by_cases hc : (l.filter fun x => decide (lp < x.published)).isEmpty && fc.random
    · rw [if_pos hc] at h
      cases hg : l.get? (seed % l.length) with
      | none => rw [hg] at h; exact absurd h (by simp)
      | some a =>
        rw [hg] at h
        cases h
        exact List.get?_mem hg
    · rw [if_neg hc] at h
      cases hh : ((l.filter fun x => decide (lp < x.published)).mergeSort published_le).head? with
      | none => rw [hh] at h; exact absurd h (by simp)
      | some a =>
        rw [hh] at h
        cases h
        have : e ∈ (l.filter fun x => decide (lp < x.published)).mergeSort published_le :=
          List.mem_of_mem_head? (by rw [hh]; rfl)
        exact List.mem_of_mem_filter (List.mem_mergeSort.mp this)

/-- If a feed has a recorded `last_processed`, its fresh set is empty and
`random` is not set, `pick_entry` takes the sort branch on the empty fresh
list and returns the `first()`-on-empty error. -/
theorem pick_entry_no_fresh_no_random {db : DbState} {fc : FeedConfig}
    {l : List DisplayEntry} {seed lp : Nat}
    (hlp : get_feed_last_processed db fc.url = some lp)
    (hfresh : l.filter (fun x => decide (lp < x.published)) = [])
    (hrand : fc.random = false) :
    pick_entry db fc l seed = .error "failed to pick first entry" := by
  unfold pick_entry
  rw [hlp]
  simp only [hfresh, hrand, Bool.and_false, if_neg (Bool.false_ne_true),
    List.mergeSort_nil, List.head?_nil]

/-! ## Claim theorems -/

/-- C8 (confirmed): Cutoff exclusion — whatever the store state, the feed's
configuration, its processed-state and the random draw, any candidate that
`get_entry` returns for a run was published strictly before the RunCutoff
captured at the start of that run. -/
theorem selector_cutoff_exclusion
    (db : DbState) (fetch : String → Except String (List DisplayEntry))
    (fc : FeedConfig) (cutoff seed : Nat) (e : DisplayEntry)
    (h : get_entry db fetch fc cutoff seed = .ok (some e)) :
    e.published < cutoff := by
  unfold get_entry at h
  cases hf : fetch fc.url with
  | error s => rw [hf] at h; exact absurd h (by simp)
  | ok entries =>
    rw [hf] at h
    simp only at h
    by_cases he : (entries.filter
        (fun x => decide (x.published < cutoff) && ! is_entry_already_processed db x.id)).isEmpty
    · rw [if_pos he] at h
      exact absurd h (by simp)
    · rw [if_neg he] at h
      cases hp : pick_entry db fc (entries.filter
          (fun x => decide (x.published < cutoff) && ! is_entry_already_processed db x.id)) seed with
      | error s => rw [hp] at h; exact absurd h (by simp)
      | ok a =>
        rw [hp] at h
        cases h
        have hmem := pick_entry_mem hp
        have hpred := List.of_mem_filter hmem
        simp only [Bool.and_eq_true, decide_eq_true_eq] at hpred
        exact hpred.1

/-- Witness for `selector_cutoff_exclusion` at a concrete single-feed run. -/
theorem selector_cutoff_exclusion_witness :
    (⟨"w8", "f", "t", [], 3, "c"⟩ : DisplayEntry).published < 10 :=
  selector_cutoff_exclusion ⟨[], []⟩
    (fun _ => .ok [⟨"w8", "f", "t", [], 3, "c"⟩]) ⟨"u8", false⟩ 10 0
    ⟨"w8", "f", "t", [], 3, "c"⟩ rfl

/-- C5 (code_bug): First-run anchoring fails — with no recorded
`last_processed` and eligible candidates published at 10 then 30 (fetched in
that order), `pick_entry` returns the *first* candidate (published 10), not
the one with maximum published instant (30), contradicting both the claim
and the source's own comment `take the newest entry`. -/
theorem first_run_takes_first_not_newest :
    pick_entry ⟨[], []⟩ ⟨"u5", false⟩
      [⟨"old5", "f", "t", [], 10, "c10"⟩, ⟨"new5", "f", "t", [], 30, "c30"⟩] 0
      = .ok ⟨"old5", "f", "t", [], 10, "c10"⟩ ∧ (10 : Nat) < 30 :=
  ⟨rfl, by decide⟩

/-- C4 counterexample: a feed with `last_processed = 100`, one eligible
candidate published at 50 (so the fresh set is empty) and `random = false`
makes `pick_entry` return the error `failed to pick first entry` — not a
normal no-selection outcome — and `get_entry` propagates that error. -/
theorem no_selection_returns_error_cex :
    get_feed_last_processed ⟨[("u4", 100)], []⟩ "u4" = some 100 ∧
    ([⟨"e4", "f", "t", [], 50, "c"⟩] : List DisplayEntry).filter
      (fun x => decide (100 < x.published)) = [] ∧
    pick_entry ⟨[("u4", 100)], []⟩ ⟨"u4", false⟩ [⟨"e4", "f", "t", [], 50, "c"⟩] 0
      = .error "failed to pick first entry" ∧
    get_entry ⟨[("u4", 100)], []⟩ (fun _ => .ok [⟨"e4", "f", "t", [], 50, "c"⟩])
      ⟨"u4", false⟩ 1000 0 = .error "failed to pick first entry" := by
  have hp : pick_entry ⟨[("u4", 100)], []⟩ ⟨"u4", false⟩
      [⟨"e4", "f", "t", [], 50, "c"⟩] 0 = .error "failed to pick first entry" :=
    @pick_entry_no_fresh_no_random ⟨[("u4", 100)], []⟩ ⟨"u4", false⟩
      [⟨"e4", "f", "t", [], 50, "c"⟩] 0 100 rfl rfl rfl
  refine ⟨rfl, rfl, hp, ?_⟩
  show (match pick_entry ⟨[("u4", 100)], []⟩ ⟨"u4", false⟩
      [⟨"e4", "f", "t", [], 50, "c"⟩] 0 with
    | Except.error e => Except.error e
    | Except.ok entry => Except.ok (some entry)) = Except.error "failed to pick first entry"
  rw [hp]

/-- C4 (corrected) theorem: for every feed with a recorded `lastProcessed`, a
non-empty eligible candidate set whose fresh set is empty, and
`randomFallback = false`, the Selector returns the run-aborting error
`failed to pick first entry` instead of a normal no-selection outcome. -/
theorem no_selection_is_error (db : DbState) (fc : FeedConfig)
    (l : List DisplayEntry) (seed lp : Nat)
    (hlp : get_feed_last_processed db fc.url = some lp)
    (_hne : l ≠ [])
    (hfresh : l.filter (fun x => decide (lp < x.published)) = [])
    (hrand : fc.random = false) :
    pick_entry db fc l seed = .error "failed to pick first entry" :=
  pick_entry_no_fresh_no_random hlp hfresh hrand

/-- Witness for `no_selection_is_error` at a concrete feed state. -/
theorem no_selection_is_error_witness :
    pick_entry ⟨[("w4", 9)], []⟩ ⟨"w4", false⟩ [⟨"i4", "f", "t", [], 7, "c"⟩] 0
      = .error "failed to pick first entry" :=
  no_selection_is_error ⟨[("w4", 9)], []⟩ ⟨"w4", false⟩
    [⟨"i4", "f", "t", [], 7, "c"⟩] 0 9 rfl (by simp) rfl rfl

/-- C6 counterexample: a delivery batch of two entries with distinct contents
is packaged into a book whose chapters hold only the first entry's content;
the second batch item is absent from the artifact. -/
theorem epub_omits_second_entry_cex :
    generate_epub [⟨"x61", "f", "t", [], 1, "c1"⟩, ⟨"x62", "f", "t", [], 2, "c2"⟩]
      = .ok ⟨"Saga", "Saga - 1", ["c1"]⟩ ∧
    ("c2" : String) ∉ (["c1"] : List String) :=
  ⟨rfl, by decide⟩

/-- C6 (corrected) theorem: `generate_epub` is invoked with the whole batch,
but the produced document contains exactly one chapter — the first batch
item's content — whatever the rest of the batch holds. -/
theorem generate_epub_first_entry_only (e : DisplayEntry) (rest : List DisplayEntry) :
    generate_epub (e :: rest) = .ok ⟨"Saga", "Saga - 1", [e.content]⟩ :=
  rfl

/-- If the feed loop succeeds on a prefix of the configured feeds and
`get_entry` fails on the next feed, the whole loop fails with that feed's
error (the `?` short-circuits), regardless of the remaining feeds. -/
theorem collect_entries_append_error
    (db : DbState) (fetch : String → Except String (List DisplayEntry))
    (seed : String → Nat) (cutoff : Nat) (l1 : List FeedConfig) (fc : FeedConfig)
    (l2 : List FeedConfig) (es : List DisplayEntry) (msg : String)
    (h1 : collect_entries db fetch seed cutoff l1 = .ok es)
    (h2 : get_entry db fetch fc cutoff (seed fc.url) = .error msg) :
    collect_entries db fetch seed cutoff (l1 ++ fc :: l2) = .error msg := by
  induction l1 generalizing es with
  | nil => simp only [List.nil_append, collect_entries, h2]
  | cons a l ih =>
    rw [List.cons_append]
    unfold collect_entries at h1 ⊢
    cases hg : get_entry db fetch a cutoff (seed a.url) with
    | error s => rw [hg] at h1; simp at h1
    | ok found =>
      rw [hg] at h1
      cases hc : collect_entries db fetch seed cutoff l with
      | error s => rw [hc] at h1; simp at h1
      | ok others => rw [ih others hc]

/-- C1 counterexample: with two configured feeds, the first one failing to
fetch and the second one having a selectable fresh entry, the run aborts
with the first feed's error — the second feed yields no delivered artifact
in that run, refuting per-feed failure isolation. -/
theorem feed_error_blocks_other_feeds_cex :
    process ⟨[], []⟩ ⟨⟨"t", "f", "r", "u", "p"⟩, "s", [⟨"uA", false⟩, ⟨"uB", false⟩]⟩
      (fun u => if u == "uA" then .error "fetch failed"
                else .ok [⟨"eB", "f", "t", [], 10, "c"⟩])
      (fun _ => 0) 100 (fun _ => .ok ()) = .err "fetch failed" ∧
    get_entry ⟨[], []⟩
      (fun u => if u == "uA" then .error "fetch failed"
                else .ok [⟨"eB", "f", "t", [], 10, "c"⟩])
      ⟨"uB", false⟩ 100 0 = .ok (some ⟨"eB", "f", "t", [], 10, "c"⟩) :=
  ⟨rfl, rfl⟩

/-- C1 (corrected) theorem: when fetching or store access fails for one feed
(`get_entry` returns an error) after the preceding feeds succeeded, the
Orchestrator does not continue with the remaining feeds: `process`
propagates that error and aborts the run, so no feed produces a delivered
artifact in that run. -/
theorem feed_error_aborts_run
    (db : DbState) (config : Config)
    (fetch : String → Except String (List DisplayEntry))
    (seed : String → Nat) (cutoff : Nat) (deliver : Epub → Except String Unit)
    (l1 : List FeedConfig) (fc : FeedConfig) (l2 : List FeedConfig)
    (es : List DisplayEntry) (msg : String)
    (hrss : config.rss = l1 ++ fc :: l2)
    (h1 : collect_entries db fetch seed cutoff l1 = .ok es)
    (h2 : get_entry db fetch fc cutoff (seed fc.url) = .error msg) :
    process db config fetch seed cutoff deliver = .err msg := by
  unfold process
  rw [hrss, collect_entries_append_error db fetch seed cutoff l1 fc l2 es msg h1 h2]

/-- Witness for `feed_error_aborts_run`: the failing feed is the first of
two, and the run aborts with its fetch error. -/
theorem feed_error_aborts_run_witness :
    process ⟨[], []⟩ ⟨⟨"t", "f", "r", "u", "p"⟩, "s", [⟨"wA", false⟩, ⟨"wB", false⟩]⟩
      (fun u => if u == "wA" then .error "boom"
                else .ok [⟨"eW", "f", "t", [], 10, "c"⟩])
      (fun _ => 0) 100 (fun _ => .ok ()) = .err "boom" :=
  feed_error_aborts_run ⟨[], []⟩
    ⟨⟨"t", "f", "r", "u", "p"⟩, "s", [⟨"wA", false⟩, ⟨"wB", false⟩]⟩
    (fun u => if u == "wA" then .error "boom"
              else .ok [⟨"eW", "f", "t", [], 10, "c"⟩])
    (fun _ => 0) 100 (fun _ => .ok ())
    [] ⟨"wA", false⟩ [⟨"wB", false⟩] [] "boom" rfl rfl rfl

/-- C2 (code_bug) theorem: whatever happens in a run, a normally returning
`process` hands back the store state it was given — no candidate id is
marked processed and no feed's last-processed instant is advanced after a
successful delivery (the source only leaves the comment
`update last_processed time and insert entries in transaction`). -/
theorem process_commits_nothing
    (db db' : DbState) (config : Config)
    (fetch : String → Except String (List DisplayEntry))
    (seed : String → Nat) (cutoff : Nat) (deliver : Epub → Except String Unit)
    (epub : Epub)
    (h : process db config fetch seed cutoff deliver = .ok (db', epub)) :
    db' = db := by
  unfold process at h
  split at h
  · exact absurd h (by simp)
  · split at h
    · exact absurd h (by simp)
    · exact absurd h (by simp)
    · split at h
      · exact absurd h (by simp)
      · simp only [RunOutcome.ok.injEq, Prod.mk.injEq] at h
        exact h.1.symm

/-- Witness for `process_commits_nothing`: a concrete run that fetches one
fresh entry, packages and delivers it successfully, and still returns the
untouched store state. -/
theorem process_commits_nothing_witness :
    (⟨[], []⟩ : DbState) = ⟨[], []⟩ :=
  process_commits_nothing ⟨[], []⟩ ⟨[], []⟩
    ⟨⟨"t", "f", "r", "u", "p"⟩, "s", [⟨"w2", false⟩]⟩
    (fun _ => .ok [⟨"e2", "f", "t", [], 10, "c2"⟩])
    (fun _ => 0) 100 (fun _ => .ok ())
    ⟨"Saga", "Saga - 1", ["c2"]⟩ rfl

/-- C3 (code_bug) theorem: a run in which no feed yields a selection (here:
the only feed's only candidate is already processed, so the batch is empty)
does not end normally — `generate_epub` unwraps `first()` of the empty
batch and the whole run panics. -/
theorem empty_batch_panics :
    process ⟨[], ["seen3"]⟩ ⟨⟨"t", "f", "r", "u", "p"⟩, "s", [⟨"u3", false⟩]⟩
      (fun _ => .ok [⟨"seen3", "f", "t", [], 10, "c"⟩])
      (fun _ => 0) 100 (fun _ => .ok ()) = .panic ∧
    generate_epub [] = .panic :=
  ⟨rfl, rfl⟩

/-- C9 (code_bug) theorem: the daemon loop survives any `Err` returned by a
run (logs and keeps running), but a run whose delivery batch is empty
panics inside `generate_epub`, and that panic unwinds through
`start_daemon` and kills the daemon — the loop does not reach the next fire
instant. -/
theorem daemon_dies_on_empty_batch_panic :
    daemon_iteration (some 42) (RunOutcome.err "boom") = LoopState.running ∧
    daemon_iteration (some 42)
      (process ⟨[], ["seen9"]⟩ ⟨⟨"t", "f", "r", "u", "p"⟩, "s", [⟨"u9", false⟩]⟩
        (fun _ => .ok [⟨"seen9", "f", "t", [], 10, "c"⟩])
        (fun _ => 0) 100 (fun _ => .ok ())) = LoopState.dead :=
  ⟨rfl, rfl⟩

/-- A successful `get_entries` converts the raw entries positionally: the
i-th output display entry is the conversion of the i-th raw entry. -/
theorem get_entries_get? (ser : String → String) (ft : Option String) :
    ∀ (raw : List RawEntry) (ds : List DisplayEntry),
      get_entries ser ft raw = .ok ds →
      ∀ (i : Nat) (r : RawEntry), raw.get? i = some r →
        ∃ d, ds.get? i = some d ∧ convert_entry ser ft r = .ok d := by
  intro raw
  induction raw with
  | nil => intro ds h i r hr; simp at hr
  | cons a rest ih =>
    intro ds h i r hr
    unfold get_entries at h
    cases hca : convert_entry ser ft a with
    | error s => rw [hca] at h; simp at h
    | ok d0 =>
      rw [hca] at h
      cases hrest : get_entries ser ft rest with
      | error s => rw [hrest] at h; simp at h
      | ok ds' =>
        rw [hrest] at h
        simp only [Except.ok.injEq] at h
        subst h
        cases i with
        | zero =>
          simp only [List.get?_cons_zero, Option.some.injEq] at hr
          subst hr
          exact ⟨d0, rfl, hca⟩
        | succ n =>
          simp only [List.get?_cons_succ] at hr
          obtain ⟨d, hd, hcd⟩ := ih ds' hrest n r hr
          exact ⟨d, by simpa using hd, hcd⟩

/-- C10 (confirmed): a fetched entry with no published timestamp is given
`DateTime::<Utc>::MIN_UTC` (the minimum representable instant, embedded as
`0`) by the fetch step; consequently it always satisfies the cutoff test
`published < cutoff` of `get_entry` (any actual RunCutoff is after
`MIN_UTC`), and for any recorded `lastProcessed` it never satisfies the
fresh-set test `lastProcessed < published` of `pick_entry`. -/
theorem missing_published_defaults_min
    (ser : String → String) (ft : Option String) (raw : List RawEntry)
    (ds : List DisplayEntry) (i : Nat) (r : RawEntry) (d : DisplayEntry)
    (hok : get_entries ser ft raw = .ok ds)
    (hr : raw.get? i = some r)
    (hd : ds.get? i = some d)
    (hnone : r.published = none) :
    d.published = 0 ∧
    (∀ cutoff : Nat, 0 < cutoff → decide (d.published < cutoff) = true) ∧
    (∀ lp : Nat, decide (lp < d.published) = false) := by
  obtain ⟨d', hd', hc⟩ := get_entries_get? ser ft raw ds hok i r hr
  rw [hd] at hd'
  cases hd'
  unfold convert_entry at hc
  cases hp : parse_xhtml ser r with
  | error s => rw [hp] at hc; simp at hc
  | ok content =>
    rw [hp] at hc
    simp only [Except.ok.injEq] at hc
    subst hc
    rw [hnone]
    refine ⟨rfl, fun cutoff hcut => decide_eq_true hcut, fun lp => decide_eq_false ?_⟩
    exact Nat.not_lt_zero lp

/-- Witness for `missing_published_defaults_min` on a one-entry feed whose
entry has content but no published timestamp. -/
theorem missing_published_defaults_min_witness :
    (⟨"r1", "Unknown Feed", "Unknown Title", [], 0, "body"⟩ : DisplayEntry).published = 0 ∧
    (∀ cutoff : Nat, 0 < cutoff →
      decide ((⟨"r1", "Unknown Feed", "Unknown Title", [], 0, "body"⟩ : DisplayEntry).published < cutoff) = true) ∧
    (∀ lp : Nat,
      decide (lp < (⟨"r1", "Unknown Feed", "Unknown Title", [], 0, "body"⟩ : DisplayEntry).published) = false) :=
  missing_published_defaults_min (fun s => s) none
    [⟨"r1", none, [], none, some (some "body")⟩]
    [⟨"r1", "Unknown Feed", "Unknown Title", [], 0, "body"⟩] 0
    ⟨"r1", none, [], none, some (some "body")⟩
    ⟨"r1", "Unknown Feed", "Unknown Title", [], 0, "body"⟩ rfl rfl rfl rfl

/-- `published_le` is transitive. -/
theorem published_le_trans (a b c : DisplayEntry) :
    published_le a b → published_le b c → published_le a c := by
  simp only [published_le, decide_eq_true_eq]
  omega

/-- `published_le` is total. -/
theorem published_le_total (a b : DisplayEntry) :
    published_le a b || published_le b a := by
  simp only [published_le]
  by_cases h : a.published ≤ b.published
  · simp [h]
  · simp [Nat.le_of_not_le h]

/-- Head of the stable sort by `published`: it is a minimum-published element
of the input and, among the elements sharing its published value, the one
that comes first in the input order (`find?`). -/
theorem head?_mergeSort_published (l : List DisplayEntry) (e : DisplayEntry)
    (h : (l.mergeSort published_le).head? = some e) :
    e ∈ l ∧ (∀ x ∈ l, e.published ≤ x.published) ∧
    l.find? (fun x => x.published == e.published) = some e := by
  obtain ⟨t, ht⟩ : ∃ t, l.mergeSort published_le = e :: t := by
    cases hs : l.mergeSort published_le with
    | nil => rw [hs] at h; exact absurd h (by simp)
    | cons a t => rw [hs] at h; simp only [List.head?_cons, Option.some.injEq] at h; exact ⟨t, by rw [h]⟩
  have hmem : e ∈ l := List.mem_mergeSort.mp (ht ▸ List.mem_cons_self e t)
  have hsorted : (l.mergeSort published_le).Pairwise (fun a b => published_le a b) :=
    List.sorted_mergeSort published_le_trans published_le_total l
  have hmin : ∀ x ∈ l, e.published ≤ x.published := by
    intro x hx
    have hxs : x ∈ l.mergeSort published_le := List.mem_mergeSort.mpr hx
    rw [ht] at hxs hsorted
    rcases List.mem_cons.mp hxs with hxe | hxt
    · rw [hxe]
    · have := (List.pairwise_cons.mp hsorted).1 x hxt
      simpa [published_le] using this
  refine ⟨hmem, hmin, ?_⟩
  have hfilter_eq :
      l.filter (fun x => x.published == e.published)
        = (l.mergeSort published_le).filter (fun x => x.published == e.published) := by
    have hpair : (l.filter (fun x => x.published == e.published)).Pairwise
        (fun a b => published_le a b) := by
      apply List.pairwise_of_forall_mem_list
      intro a ha b hb
      have ha' := List.of_mem_filter ha
      have hb' := List.of_mem_filter hb
      simp only [beq_iff_eq] at ha' hb'
      simp [published_le, ha', hb']
    have hsub : List.Sublist (l.filter (fun x => x.published == e.published))
        (l.mergeSort published_le) :=
      List.sublist_mergeSort published_le_trans published_le_total hpair
        (List.filter_sublist l)
    have hsub2 : List.Sublist (l.filter (fun x => x.published == e.published))
        ((l.mergeSort published_le).filter (fun x => x.published == e.published)) := by
      have h2 := List.Sublist.filter (fun x => x.published == e.published) hsub
      rw [List.filter_filter] at h2
      simpa [Bool.and_self] using h2
    have hperm : List.Perm
        ((l.mergeSort published_le).filter (fun x => x.published == e.published))
        (l.filter (fun x => x.published == e.published)) :=
      (List.mergeSort_perm l published_le).filter _
    exact List.Sublist.eq_of_length hsub2 hperm.length_eq.symm
  rw [← List.filter_head?, hfilter_eq, ht, List.filter_cons_of_pos (by simp)]
  rfl

/-- C7 (corrected) theorem: for every feed with a recorded `lastProcessed`
whose fresh set is non-empty, the Selector succeeds and returns a fresh
candidate with the minimum published instant; among the fresh candidates
sharing that minimum it returns the one occurring first in the fetched
candidate order (`sort_by` is stable), not the lexicographically smallest
id. -/
theorem backlog_min_published_first_position
    (db : DbState) (fc : FeedConfig) (l : List DisplayEntry) (seed lp : Nat)
    (hlp : get_feed_last_processed db fc.url = some lp)
    (hfresh : l.filter (fun x => decide (lp < x.published)) ≠ []) :
    ∃ e, pick_entry db fc l seed = .ok e ∧
      e ∈ l.filter (fun x => decide (lp < x.published)) ∧
      (∀ x ∈ l.filter (fun x => decide (lp < x.published)), e.published ≤ x.published) ∧
      (l.filter (fun x => decide (lp < x.published))).find?
        (fun x => x.published == e.published) = some e := by
  unfold pick_entry
  rw [hlp]
  have hB : (l.filter (fun x => decide (lp < x.published))).isEmpty = false := by
    simpa [List.isEmpty_iff] using hfresh
  simp only [hB, Bool.false_and, Bool.false_eq_true, if_false]
  cases hh : ((l.filter (fun x => decide (lp < x.published))).mergeSort published_le).head? with
  | none =>
    exfalso
    have hnil : (l.filter (fun x => decide (lp < x.published))).mergeSort published_le = [] :=
      List.head?_eq_none_iff.mp hh
    have hl := congrArg List.length hnil
    rw [List.length_mergeSort] at hl
    exact hfresh (List.length_eq_zero.mp hl)
  | some e =>
    obtain ⟨hmem, hmin, hfind⟩ := head?_mergeSort_published _ e hh
    exact ⟨e, rfl, hmem, hmin, hfind⟩

/-- C7 counterexample: `lastProcessed = 5`, two fresh candidates both
published at 10, fetched with id "b" before id "a"; the Selector returns
the id-"b" one (first in fetched order) although "a" is the
lexicographically smaller id. -/
theorem backlog_tie_breaks_by_position_cex :
    get_feed_last_processed ⟨[("u7", 5)], []⟩ "u7" = some 5 ∧
    pick_entry ⟨[("u7", 5)], []⟩ ⟨"u7", false⟩
      [⟨"b", "f", "t", [], 10, "cb"⟩, ⟨"a", "f", "t", [], 10, "ca"⟩] 0
      = .ok ⟨"b", "f", "t", [], 10, "cb"⟩ ∧
    ("a" : String) < "b" := by
  refine ⟨rfl, ?_, ?_⟩
  · simp [pick_entry, get_feed_last_processed, List.mergeSort, published_le]
  · rw [String.lt_iff_toList_lt]; decide

/-- Witness for `backlog_min_published_first_position` at a concrete feed
with fresh candidates published at 12 and 9. -/
theorem backlog_min_published_first_position_witness :
    ∃ e, pick_entry ⟨[("w7", 5)], []⟩ ⟨"w7", false⟩
        [⟨"wb", "f", "t", [], 12, "cb"⟩, ⟨"wa", "f", "t", [], 9, "ca"⟩] 3 = .ok e ∧
      e ∈ ([⟨"wb", "f", "t", [], 12, "cb"⟩, ⟨"wa", "f", "t", [], 9, "ca"⟩] :
          List DisplayEntry).filter (fun x => decide (5 < x.published)) ∧
      (∀ x ∈ ([⟨"wb", "f", "t", [], 12, "cb"⟩, ⟨"wa", "f", "t", [], 9, "ca"⟩] :
          List DisplayEntry).filter (fun x => decide (5 < x.published)),
        e.published ≤ x.published) ∧
      (([⟨"wb", "f", "t", [], 12, "cb"⟩, ⟨"wa", "f", "t", [], 9, "ca"⟩] :
          List DisplayEntry).filter (fun x => decide (5 < x.published))).find?
        (fun x => x.published == e.published) = some e :=
  backlog_min_published_first_position ⟨[("w7", 5)], []⟩ ⟨"w7", false⟩
    [⟨"wb", "f", "t", [], 12, "cb"⟩, ⟨"wa", "f", "t", [], 9, "ca"⟩] 3 5 rfl (by decide)
